import Mathlib

/-!
Verification of the k0da cluster tool (github.com/makhov/k0da) against its
natural-language specification.

This file gives a shallow embedding, in Lean 4, of the pure logic of the
relevant source functions:

* `internal/runtime/detect.go` — `normalizeSocket`
* `internal/config/normalize.go` — `NormalizeVersionTag`, `NormalizeImageTag`
* `internal/config/config.go` — `ClusterConfig`, `Validate`, `LoadClusterConfig`
* `cmd/create.go` — the `cmdArgs` construction of `createK0sCluster`
* `internal/utils/utils.go` — kubeconfig store (`AddClusterToKubeconfig`,
  `RemoveClusterFromKubeconfig`), manifest staging (`copyManifestsToDir`),
  readiness waiting (`WaitForK0sReady`)
* `internal/runtime/docker.go` and the Podman backend — `ExecInContainer`

Go strings are modelled as Lean `String` (a list of characters); Go errors are
modelled as `Option`/`Except` values; filesystem, network and container-engine
side effects are modelled as explicit function parameters (oracles) or as
in/out values of the pure state they touch.  Machine integers are modelled as
`Nat`/`Int` with explicit bounds where Go checks overflow.
-/

/-! ## Go string helpers -/

/-- Models Go `unicode.IsSpace` (the Unicode White_Space property). -/
def goIsSpace (c : Char) : Bool :=
  let n := c.toNat
  decide ((9 ≤ n ∧ n ≤ 13) ∨ n = 32 ∨ n = 133 ∨ n = 160 ∨ n = 5760 ∨
    (8192 ≤ n ∧ n ≤ 8202) ∨ n = 8232 ∨ n = 8233 ∨ n = 8239 ∨ n = 8287 ∨ n = 12288)

/-- Models Go `strings.TrimSpace`: drop leading and trailing white space. -/
def goTrimSpace (s : String) : String :=
  ⟨((s.data.dropWhile goIsSpace).reverse.dropWhile goIsSpace).reverse⟩

/-- Models Go `strings.HasPrefix`. -/
def goHasPrefix (s pre : String) : Bool :=
  pre.data.isPrefixOf s.data

/-- Models Go `strings.TrimPrefix`. -/
def goTrimPrefix (s pre : String) : String :=
  if goHasPrefix s pre then ⟨s.data.drop pre.data.length⟩ else s

/-- Index (from the start) of the last occurrence of character `t`, as in Go
`strings.LastIndex` restricted to a one-character needle; `none` for Go's `-1`. -/
def lastIndexChar : List Char → Char → Option Nat
  | [], _ => none
  | c :: cs, t =>
    match lastIndexChar cs t with
    | some i => some (i + 1)
    | none => if c = t then some 0 else none

/-! ## `internal/runtime/detect.go`: socket normalization -/

/-- Embedding of `normalizeSocket` (detect.go lines 29-40): a bare filesystem
path becomes a `unix://` URI, a single-slash `unix:/path` becomes
`unix:///path`, anything else (including well-formed URIs) is returned as is. -/
def normalizeSocket (s : String) : String :=
  if s = "" then s
  else if goHasPrefix s "/" then "unix://" ++ s
  else if goHasPrefix s "unix:/" && !goHasPrefix s "unix:///" then
    "unix://" ++ goTrimPrefix s "unix:"
  else s

/-! ## `internal/config/normalize.go`: tag normalization -/

/-- Embedding of `NormalizeVersionTag`: trim space, then replace every `+`
with `-` (Go `strings.ReplaceAll(v, "+", "-")`). -/
def NormalizeVersionTag (version : String) : String :=
  ⟨(goTrimSpace version).data.map (fun c => if c = '+' then '-' else c)⟩

/-- Embedding of `NormalizeImageTag`: normalize the tag after the last `:`;
an image reference with no `:` is returned unchanged (after trimming). -/
def NormalizeImageTag (image : String) : String :=
  let image := goTrimSpace image
  match lastIndexChar image.data ':' with
  | none => image
  | some idx =>
    let repo : String := ⟨image.data.take idx⟩
    let tag : String := ⟨image.data.drop (idx + 1)⟩
    repo ++ ":" ++ NormalizeVersionTag tag

/-! ## Helper lemmas about prefixes -/

theorem goHasPrefix_head (s : String) (c : Char) (cs : List Char) (p : String)
    (hp : p.data = c :: cs) (h : goHasPrefix s p = true) :
    ∃ bs, s.data = c :: bs := by
  unfold goHasPrefix at h
  rw [hp] at h
  cases hs : s.data with
  | nil => rw [hs] at h; simp [List.isPrefixOf] at h
  | cons b bs =>
    rw [hs] at h
    simp only [List.isPrefixOf, Bool.and_eq_true, beq_iff_eq] at h
    exact ⟨bs, by rw [h.1]⟩

theorem lastIndexChar_eq_none (t : Char) :
    ∀ cs : List Char, t ∉ cs → lastIndexChar cs t = none := by
  intro cs
  induction cs with
  | nil => intro _; rfl
  | cons c cs ih =>
    intro h
    have hc : c ≠ t := by
      intro hct; exact h (by rw [hct]; exact List.mem_cons_self _ _)
    have hcs : t ∉ cs := fun hm => h (List.mem_cons_of_mem _ hm)
    simp [lastIndexChar, ih hcs, hc]

/-! ## Claim C6 -/

/-- C6: `normalizeSocket` maps `/var/run/x.sock` to `unix:///var/run/x.sock`,
maps `unix:/var/run/x.sock` to `unix:///var/run/x.sock`, returns any
already-well-formed `unix://` (that is, `unix:///`-prefixed) or `ssh://` URI
unchanged, and returns the empty string for empty input. -/
theorem claim_C6_normalize_socket :
    normalizeSocket "/var/run/x.sock" = "unix:///var/run/x.sock" ∧
    normalizeSocket "unix:/var/run/x.sock" = "unix:///var/run/x.sock" ∧
    normalizeSocket "" = "" ∧
    (∀ s : String, goHasPrefix s "unix:///" = true → normalizeSocket s = s) ∧
    (∀ s : String, goHasPrefix s "ssh://" = true → normalizeSocket s = s) := by
  refine ⟨by decide, by decide, by decide, ?_, ?_⟩
  · intro s h
    obtain ⟨bs, hbs⟩ :=
      goHasPrefix_head s 'u' ['n', 'i', 'x', ':', '/', '/', '/'] "unix:///" rfl h
    have hne : s ≠ "" := by
      intro he; rw [he] at hbs
      exact List.noConfusion (show ([] : List Char) = 'u' :: bs from hbs)
    have h1 : goHasPrefix s "/" = false := by
      unfold goHasPrefix; rw [hbs]; rfl
    simp [normalizeSocket, hne, h1, h]
  · intro s h
    obtain ⟨bs, hbs⟩ :=
      goHasPrefix_head s 's' ['s', 'h', ':', '/', '/'] "ssh://" rfl h
    have hne : s ≠ "" := by
      intro he; rw [he] at hbs
      exact List.noConfusion (show ([] : List Char) = 's' :: bs from hbs)
    have h1 : goHasPrefix s "/" = false := by
      unfold goHasPrefix; rw [hbs]; rfl
    have h2 : goHasPrefix s "unix:/" = false := by
      unfold goHasPrefix; rw [hbs]; rfl
    simp [normalizeSocket, hne, h1, h2]

/-- Witness for C6: the general clauses instantiated at concrete URIs. -/
theorem claim_C6_normalize_socket_witness :
    normalizeSocket "unix:///run/podman.sock" = "unix:///run/podman.sock" ∧
    normalizeSocket "ssh://root@host:22/run/podman.sock" =
      "ssh://root@host:22/run/podman.sock" :=
  ⟨claim_C6_normalize_socket.2.2.2.1 "unix:///run/podman.sock" (by decide),
   claim_C6_normalize_socket.2.2.2.2 "ssh://root@host:22/run/podman.sock" (by decide)⟩

/-! ## Claim C7 -/

/-- C7: `NormalizeVersionTag` maps `v1.33.4+k0s.0` to `v1.33.4-k0s.0`;
`NormalizeImageTag` maps `repo/img:v1+k0s.0` to `repo/img:v1-k0s.0`; and
`NormalizeImageTag` returns any image reference containing no colon unchanged
(an image reference carries no surrounding white space, stated here as the
string being invariant under trimming). -/
theorem claim_C7_normalize_tags :
    NormalizeVersionTag "v1.33.4+k0s.0" = "v1.33.4-k0s.0" ∧
    NormalizeImageTag "repo/img:v1+k0s.0" = "repo/img:v1-k0s.0" ∧
    (∀ s : String, goTrimSpace s = s → ':' ∉ s.data → NormalizeImageTag s = s) := by
  refine ⟨by decide, by decide, ?_⟩
  intro s hts hc
  have h0 : lastIndexChar s.data ':' = none := lastIndexChar_eq_none ':' s.data hc
  simp only [NormalizeImageTag, hts, h0]

/-- Witness for C7: the colon-free clause instantiated at a concrete image. -/
theorem claim_C7_normalize_tags_witness :
    NormalizeImageTag "busybox" = "busybox" :=
  claim_C7_normalize_tags.2.2 "busybox" (by decide) (by decide)

/-! ## `internal/config/config.go`: cluster configuration -/

/-- Embedding of `config.Port`. -/
structure KPort where
  containerPort : Nat
  protocol : String
  hostIP : String
  hostPort : Nat
deriving Repr, DecidableEq

/-- Embedding of `config.Mount`. -/
structure KMount where
  type : String
  source : String
  target : String
  options : List String
deriving Repr, DecidableEq

/-- Embedding of `config.NodeSpec`; the Go `map[string]string` fields are
modelled as association lists. -/
structure NodeSpec where
  name : String
  role : String
  image : String
  args : List String
  ports : List KPort
  mounts : List KMount
  env : List (String × String)
  labels : List (String × String)
deriving Repr, DecidableEq

/-- Embedding of `config.K0sSpec`; the free-form YAML `Config` map is
modelled as an association list of YAML subtrees kept abstract as strings. -/
structure K0sSpec where
  image : String
  version : String
  config : List (String × String)
  args : List String
  manifests : List String
deriving Repr, DecidableEq

/-- Embedding of `config.OptionsSpec`. -/
structure OptionsSpec where
  network : String
deriving Repr, DecidableEq

/-- Embedding of `config.Spec`. -/
structure Spec where
  nodes : List NodeSpec
  k0s : K0sSpec
  options : OptionsSpec
deriving Repr, DecidableEq

/-- Embedding of `config.ClusterConfig`. -/
structure ClusterConfig where
  apiVersion : String
  kind : String
  spec : Spec
  sourcePath : String
deriving Repr, DecidableEq

/-- Go zero value of `ClusterConfig` (what `var c ClusterConfig` denotes). -/
def emptyClusterConfig : ClusterConfig :=
  { apiVersion := "", kind := "",
    spec := { nodes := [],
              k0s := { image := "", version := "", config := [], args := [], manifests := [] },
              options := { network := "" } },
    sourcePath := "" }

/-- Embedding of `config.DefaultNetwork`. -/
def DefaultNetwork : String := "k0da"

/-- Embedding of `(*ClusterConfig).Validate` (config.go lines 123-153): apply
defaults for empty kind/apiVersion/network and reject invalid values. -/
def Validate (c : ClusterConfig) : Except String ClusterConfig :=
  let c := if c.kind = "" then { c with kind := "Cluster" } else c
  let c := if c.apiVersion = "" then { c with apiVersion := "k0da.k0sproject.io/v1alpha1" } else c
  if c.kind ≠ "Cluster" then .error "unsupported kind"
  else if c.apiVersion ≠ "k0da.k0sproject.io/v1alpha1" then .error "unsupported apiVersion"
  else if c.spec.k0s.image ≠ "" ∧ c.spec.k0s.image.data.length < 3 then .error "invalid k0s.image"
  else if c.spec.nodes.any (fun n => n.role = "") then .error "node role is required"
  else
    let c := if c.spec.options.network = "" then { c with spec.options.network := DefaultNetwork } else c
    .ok c

/-- Embedding of `config.LoadClusterConfig` (config.go lines 91-121).  The
file read and YAML parse are modelled by the `parsed` parameter: `none` is an
empty `path` (no file is read, the zero-value config is used), `some c` is a
successfully read and parsed file.  The embedded plugin manifests returned by
`plugins.PluginManifestList()` are the `pluginPaths` parameter. -/
def LoadClusterConfig (parsed : Option ClusterConfig) (pluginPaths : List String) :
    Except String ClusterConfig :=
  let c := parsed.getD emptyClusterConfig
  let c := { c with spec.k0s.manifests := c.spec.k0s.manifests ++ pluginPaths }
  Validate c

/-- Embedding of `(*ClusterConfig).PickPrimaryNode`: the first controller
node if present, otherwise the first node, otherwise none. -/
def PickPrimaryNode (c : ClusterConfig) : Option NodeSpec :=
  match c.spec.nodes.find? (fun n => n.role = "controller") with
  | some n => some n
  | none => c.spec.nodes.head?

/-! ## `cmd/create.go`: primary-node launch arguments -/

/-- Embedding of the `cmdArgs` construction of `createK0sCluster`
(create.go lines 374-386): start from
`k0s controller --no-taints --enable-dynamic-config`, add `--single` for a
one-node topology and `--enable-worker` otherwise, add
`--config /etc/k0s/k0s.yaml` when a k0s config file is staged, then append
the global extra k0s arguments. -/
def createK0sClusterArgs (cc : ClusterConfig) (k0sConfigHostPath : String) : List String :=
  let cmdArgs := ["k0s", "controller", "--no-taints", "--enable-dynamic-config"]
  let cmdArgs := if cc.spec.nodes.length = 1 then cmdArgs ++ ["--single"]
                 else cmdArgs ++ ["--enable-worker"]
  let cmdArgs := if goTrimSpace k0sConfigHostPath ≠ "" then
                   cmdArgs ++ ["--config", "/etc/k0s/k0s.yaml"]
                 else cmdArgs
  if cc.spec.k0s.args.length > 0 then cmdArgs ++ cc.spec.k0s.args else cmdArgs

/-- Modelled from the spec: the repository's current controller-argument
builder `buildK0sControllerArgs` is not among the provided sources — only its
unit test `TestBuildK0sControllerArgs` is (cmd/load.go after the separator).
This definition follows the spec sentence "Build primary-node launch
arguments: always enable dynamic configuration and disable the metrics-server
component; add `--single` if the topology has exactly one node, else
`--enable-worker --no-taints`; append global then node-specific extra
arguments; point at the staged configuration file", and reproduces every
expectation of that unit test. -/
def buildK0sControllerArgs (cc : ClusterConfig) (node : Option NodeSpec)
    (isPrimary : Bool) : List String :=
  let args := ["k0s", "controller", "--enable-dynamic-config",
               "--disable-components=metrics-server"]
  let args := if cc.spec.nodes.length = 1 then args ++ ["--single"]
              else args ++ ["--enable-worker", "--no-taints"]
  let args := if isPrimary then args else args ++ ["--token-file", "/etc/k0s/join.token"]
  let args := args ++ ["--config", "/etc/k0s/k0s.yaml"]
  let args := args ++ cc.spec.k0s.args
  match node with
  | some n => args ++ n.args
  | none => args

/-- Convenience constructor mirroring the Go composite literals used by the
`TestBuildK0sControllerArgs` test cases. -/
def mkNode (name role : String) (args : List String := []) : NodeSpec :=
  { name := name, role := role, image := "", args := args,
    ports := [], mounts := [], env := [], labels := [] }

/-- Convenience constructor for a `ClusterConfig` with the given nodes and
global k0s arguments, as built in the test cases. -/
def mkConfig (nodes : List NodeSpec) (k0sArgs : List String := []) : ClusterConfig :=
  { apiVersion := "", kind := "",
    spec := { nodes := nodes,
              k0s := { image := "", version := "", config := [], args := k0sArgs,
                       manifests := [] },
              options := { network := "" } },
    sourcePath := "" }

theorem buildK0sControllerArgs_matches_test_primary_single :
    buildK0sControllerArgs (mkConfig [mkNode "node1" "controller"])
      (some (mkNode "node1" "controller")) true =
    ["k0s", "controller", "--enable-dynamic-config",
     "--disable-components=metrics-server", "--single", "--config",
     "/etc/k0s/k0s.yaml"] := by decide

theorem buildK0sControllerArgs_matches_test_secondary_with_args :
    buildK0sControllerArgs
      (mkConfig [mkNode "node1" "controller", mkNode "node2" "controller"]
        ["--global-arg=value"])
      (some (mkNode "node2" "controller" ["--node-arg=value"])) false =
    ["k0s", "controller", "--enable-dynamic-config",
     "--disable-components=metrics-server", "--enable-worker", "--no-taints",
     "--token-file", "/etc/k0s/join.token", "--config", "/etc/k0s/k0s.yaml",
     "--global-arg=value", "--node-arg=value"] := by decide

/-! ## Claim C1 -/

/-- C1: for every cluster topology, the primary-node launch argument list
always contains `--enable-dynamic-config` and always contains the argument
disabling the metrics-server component
(`--disable-components=metrics-server`).  The second half is settled against
the spec-modelled `buildK0sControllerArgs`; the first half also holds of the
in-source `createK0sCluster` argument construction. -/
theorem claim_C1_primary_args_dynamic_config_and_metrics_server :
    ∀ (cc : ClusterConfig) (node : Option NodeSpec) (isPrimary : Bool)
      (k0sConfigHostPath : String),
      "--enable-dynamic-config" ∈ buildK0sControllerArgs cc node isPrimary ∧
      "--disable-components=metrics-server" ∈ buildK0sControllerArgs cc node isPrimary ∧
      "--enable-dynamic-config" ∈ createK0sClusterArgs cc k0sConfigHostPath := by
  intro cc node isPrimary k0sConfigHostPath
  refine ⟨?_, ?_, ?_⟩ <;>
    · simp only [buildK0sControllerArgs, createK0sClusterArgs]
      repeat' split
      all_goals simp

/-! ## Claim C2 -/

/-- C2 counterexample: the claim as stated is false.  A two-node topology
whose global extra k0s arguments include `--single` yields a primary launch
argument list that does contain `--single`, although the claim requires that
for two or more nodes the list never contains it. -/
theorem claim_C2_counterexample :
    2 ≤ (mkConfig [mkNode "node1" "controller", mkNode "node2" "worker"]
          ["--single"]).spec.nodes.length ∧
    "--single" ∈ createK0sClusterArgs
      (mkConfig [mkNode "node1" "controller", mkNode "node2" "worker"] ["--single"]) "" := by
  decide

/-- C2 amended: provided the topology's extra global k0s arguments do not
themselves contain `--single` or `--enable-worker`, a one-node topology yields
arguments containing `--single` and not `--enable-worker`, and a topology with
two or more nodes yields arguments containing `--enable-worker` and
`--no-taints` and not `--single`. -/
theorem claim_C2_amended_single_vs_multi :
    ∀ (cc : ClusterConfig) (p : String),
      "--single" ∉ cc.spec.k0s.args →
      "--enable-worker" ∉ cc.spec.k0s.args →
      (cc.spec.nodes.length = 1 →
        "--single" ∈ createK0sClusterArgs cc p ∧
        "--enable-worker" ∉ createK0sClusterArgs cc p) ∧
      (2 ≤ cc.spec.nodes.length →
        "--enable-worker" ∈ createK0sClusterArgs cc p ∧
        "--no-taints" ∈ createK0sClusterArgs cc p ∧
        "--single" ∉ createK0sClusterArgs cc p) := by
  intro cc p h1 h2
  constructor
  · intro hlen
    simp only [createK0sClusterArgs, hlen]
    split_ifs <;> simp_all
  · intro hlen
    have hne : cc.spec.nodes.length ≠ 1 := by omega
    simp only [createK0sClusterArgs, hne]
    split_ifs <;> simp_all

/-- Witness for the amended C2: a concrete one-node and a concrete two-node
topology, hypotheses discharged by computation. -/
theorem claim_C2_amended_witness :
    ("--single" ∈ createK0sClusterArgs (mkConfig [mkNode "n1" "controller"]) "" ∧
     "--enable-worker" ∉ createK0sClusterArgs (mkConfig [mkNode "n1" "controller"]) "") ∧
    ("--enable-worker" ∈ createK0sClusterArgs
        (mkConfig [mkNode "n1" "controller", mkNode "n2" "worker"]) "" ∧
     "--no-taints" ∈ createK0sClusterArgs
        (mkConfig [mkNode "n1" "controller", mkNode "n2" "worker"]) "" ∧
     "--single" ∉ createK0sClusterArgs
        (mkConfig [mkNode "n1" "controller", mkNode "n2" "worker"]) "") := by
  constructor
  · exact (claim_C2_amended_single_vs_multi (mkConfig [mkNode "n1" "controller"]) ""
      (by decide) (by decide)).1 (by decide)
  · exact (claim_C2_amended_single_vs_multi
      (mkConfig [mkNode "n1" "controller", mkNode "n2" "worker"]) ""
      (by decide) (by decide)).2 (by decide)

/-! ## Claim C9 -/

/-- C9: with no cluster config file, `LoadClusterConfig` succeeds and returns
a config whose node list is empty, and the `createK0sCluster` argument
construction then takes the multi-node branch: the arguments contain
`--enable-worker` and not `--single`. -/
theorem claim_C9_no_config_file_multinode_branch :
    ∀ (pluginPaths : List String) (p : String),
      ∃ cc, LoadClusterConfig none pluginPaths = .ok cc ∧
        cc.spec.nodes = [] ∧
        "--enable-worker" ∈ createK0sClusterArgs cc p ∧
        "--single" ∉ createK0sClusterArgs cc p := by
  intro pluginPaths p
  refine ⟨{ apiVersion := "k0da.k0sproject.io/v1alpha1", kind := "Cluster",
            spec := { nodes := [],
                      k0s := { image := "", version := "", config := [], args := [],
                               manifests := pluginPaths },
                      options := { network := "k0da" } },
            sourcePath := "" }, rfl, rfl, ?_, ?_⟩ <;>
    · simp only [createK0sClusterArgs]
      split_ifs <;> first | decide | simp_all

/-! ## `internal/utils/utils.go`: kubeconfig unification store -/

/-- Embedding of `utils.Cluster`. -/
structure KCluster where
  server : String
  certificateAuthorityData : String
deriving Repr, DecidableEq

/-- Embedding of `utils.NamedCluster`. -/
structure NamedCluster where
  name : String
  cluster : KCluster
deriving Repr, DecidableEq

/-- Embedding of `utils.Context`. -/
structure KContext where
  cluster : String
  user : String
deriving Repr, DecidableEq

/-- Embedding of `utils.NamedContext`. -/
structure NamedContext where
  name : String
  context : KContext
deriving Repr, DecidableEq

/-- Embedding of `utils.User`. -/
structure KUser where
  clientCertificateData : String
  clientKeyData : String
deriving Repr, DecidableEq

/-- Embedding of `utils.NamedUser`. -/
structure NamedUser where
  name : String
  user : KUser
deriving Repr, DecidableEq

/-- Embedding of `utils.Kubeconfig`; the free-form `Preferences` map is an
association list. -/
@[ext]
structure Kubeconfig where
  apiVersion : String
  kind : String
  clusters : List NamedCluster
  contexts : List NamedContext
  currentContext : String
  users : List NamedUser
  preferences : List (String × String)
deriving Repr, DecidableEq

/-- Embedding of the lower-case helper `removeClusterFromKubeconfig`
(utils.go lines 430-463): drop every cluster, context and user entry whose
name is `k0da-` followed by the local cluster name. -/
def removeClusterFromKubeconfig (kubeconfig : Kubeconfig) (clusterName : String) :
    Kubeconfig :=
  let clusterNameFormatted := "k0da-" ++ clusterName
  let contextNameFormatted := "k0da-" ++ clusterName
  let userNameFormatted := "k0da-" ++ clusterName
  { kubeconfig with
    clusters := kubeconfig.clusters.filter (fun cluster => cluster.name != clusterNameFormatted),
    contexts := kubeconfig.contexts.filter (fun context => context.name != contextNameFormatted),
    users := kubeconfig.users.filter (fun user => user.name != userNameFormatted) }

/-- Embedding of `RemoveClusterFromKubeconfig` (utils.go lines 396-427).  The
on-disk unified kubeconfig is modelled by its parsed content: `none` models a
missing file (`os.IsNotExist`), `some kc` an existing parseable file.  The
return value is the resulting file state; `.ok none` means the function
returned `nil` without writing anything (the missing-file no-op). -/
def RemoveClusterFromKubeconfig (file : Option Kubeconfig) (clusterName : String) :
    Except String (Option Kubeconfig) :=
  match file with
  | none => .ok none
  | some kc0 =>
    let kc := removeClusterFromKubeconfig kc0 clusterName
    let kc :=
      if kc.currentContext = "k0da-" ++ clusterName then
        match kc.contexts with
        | c :: _ => { kc with currentContext := c.name }
        | [] => { kc with currentContext := "" }
      else kc
    .ok (some kc)

/-- Embedding of the fresh kubeconfig created by `AddClusterToKubeconfig`
when the file does not exist. -/
def newKubeconfig : Kubeconfig :=
  { apiVersion := "v1", kind := "Config", clusters := [], contexts := [],
    currentContext := "", users := [], preferences := [] }

/-- Embedding of `AddClusterToKubeconfig` (utils.go lines 308-393).  The
admin kubeconfig fetched from the container (`k0s kubeconfig admin`, already
parsed) is `containerKubeconfig`; the resolved host `port` stands for
`GetContainerPort`; `file` is the parsed state of the unified kubeconfig file
(`none` when it does not exist).  The exec/port/parse failure paths return
before any mutation and are not modelled.  The result is the new file
content: stale entries for the derived name are removed, the new entries are
appended, and the new context becomes current. -/
def AddClusterToKubeconfig (containerKubeconfig : Kubeconfig) (port : String)
    (file : Option Kubeconfig) (clusterName : String) : Kubeconfig :=
  let containerKubeconfig :=
    match containerKubeconfig.clusters with
    | c :: rest =>
      { containerKubeconfig with
        clusters := { c with cluster := { c.cluster with
          server := "https://127.0.0.1:" ++ port } } :: rest }
    | [] => containerKubeconfig
  let kc := match file with
    | none => newKubeconfig
    | some k => k
  let kc := removeClusterFromKubeconfig kc clusterName
  let clusterNameFormatted := "k0da-" ++ clusterName
  let contextNameFormatted := "k0da-" ++ clusterName
  let userNameFormatted := "k0da-" ++ clusterName
  let kc := match containerKubeconfig.clusters with
    | c :: _ =>
      { kc with clusters := kc.clusters ++
        [({ name := clusterNameFormatted, cluster := c.cluster } : NamedCluster)] }
    | [] => kc
  let kc := if containerKubeconfig.contexts.length > 0 then
      { kc with contexts := kc.contexts ++
        [({ name := contextNameFormatted,
            context := { cluster := clusterNameFormatted, user := userNameFormatted } } :
          NamedContext)] }
    else kc
  let kc := match containerKubeconfig.users with
    | u :: _ =>
      { kc with users := kc.users ++
        [({ name := userNameFormatted, user := u.user } : NamedUser)] }
    | [] => kc
  { kc with currentContext := contextNameFormatted }

/-- Number of cluster, context and user entries carrying a given name. -/
def entriesNamed (kc : Kubeconfig) (n : String) : Nat × Nat × Nat :=
  ((kc.clusters.filter (fun c => c.name == n)).length,
   (kc.contexts.filter (fun c => c.name == n)).length,
   (kc.users.filter (fun u => u.name == n)).length)

theorem filter_ne_then_eq {α : Type} (f : α → String) (n : String) (l : List α) :
    (l.filter (fun x => f x != n)).filter (fun x => f x == n) = [] := by
  induction l with
  | nil => rfl
  | cons a l ih => by_cases h : f a = n <;> simp [List.filter_cons, h, ih]

theorem filter_named_eq_nil {α : Type} (f : α → String) (n : String) (app : List α)
    (happ : ∀ a ∈ app, f a = n) : app.filter (fun x => f x != n) = [] := by
  revert happ
  induction app with
  | nil => intro _; rfl
  | cons a t ih =>
    intro happ
    have ha := happ a (List.mem_cons_self a t)
    simp only [List.filter_cons, ha, bne_self_eq_false, Bool.false_eq_true, if_false]
    exact ih (fun b hb => happ b (List.mem_cons_of_mem a hb))

theorem filter_ne_append_named {α : Type} (f : α → String) (n : String) (l app : List α)
    (happ : ∀ a ∈ app, f a = n) :
    (l.filter (fun x => f x != n) ++ app).filter (fun x => f x != n) =
    l.filter (fun x => f x != n) := by
  rw [List.filter_append, List.filter_filter,
    filter_named_eq_nil f n app happ, List.append_nil]
  congr 1
  funext a
  exact Bool.and_self _

theorem AddClusterToKubeconfig_idem (ck : Kubeconfig) (port : String)
    (file : Option Kubeconfig) (n : String) :
    AddClusterToKubeconfig ck port (some (AddClusterToKubeconfig ck port file n)) n =
    AddClusterToKubeconfig ck port file n := by
  cases hck : ck.clusters <;> cases hcu : ck.users <;> cases hcx : ck.contexts <;>
    cases file <;>
      simp [AddClusterToKubeconfig, removeClusterFromKubeconfig, newKubeconfig,
        hck, hcu, hcx, List.filter_append, List.filter_filter, List.filter_cons,
        Bool.and_self]

/-! ## Claim C3 -/

/-- C3: for every kubeconfig state, adding a cluster named `demo` and then
removing it leaves zero cluster, context or user entries named `k0da-demo`;
and re-adding a cluster whose derived name already has entries first removes
the stale entries, so re-add is idempotent (here proved in the strong form:
the whole resulting kubeconfig is unchanged, hence in particular all entry
counts are). -/
theorem claim_C3_kubeconfig_add_remove :
    ∀ (file : Option Kubeconfig) (containerKubeconfig : Kubeconfig) (port : String),
      (∃ final,
        RemoveClusterFromKubeconfig
          (some (AddClusterToKubeconfig containerKubeconfig port file "demo")) "demo" =
          .ok (some final) ∧
        entriesNamed final "k0da-demo" = (0, 0, 0)) ∧
      (∀ clusterName : String,
        AddClusterToKubeconfig containerKubeconfig port
          (some (AddClusterToKubeconfig containerKubeconfig port file clusterName))
          clusterName =
        AddClusterToKubeconfig containerKubeconfig port file clusterName) := by
  intro file ck port
  refine ⟨⟨_, rfl, ?_⟩, fun n => AddClusterToKubeconfig_idem ck port file n⟩
  split <;> [skip; skip] <;> first
  | (split <;>
      simp [entriesNamed, removeClusterFromKubeconfig, filter_ne_then_eq])
  | simp [entriesNamed, removeClusterFromKubeconfig, filter_ne_then_eq]

/-! ## Claim C4 -/

/-- C4: `RemoveClusterFromKubeconfig` removes the cluster, context and user
entries for the given local name together; if the removed context was the
current context, the new current context is the name of some remaining
context, or the empty string when no contexts remain; and a missing
kubeconfig file is a no-op returning no error. -/
theorem claim_C4_remove_cluster_semantics :
    ∀ (clusterName : String),
      RemoveClusterFromKubeconfig none clusterName = .ok none ∧
      ∀ kc : Kubeconfig, ∃ kc',
        RemoveClusterFromKubeconfig (some kc) clusterName = .ok (some kc') ∧
        entriesNamed kc' ("k0da-" ++ clusterName) = (0, 0, 0) ∧
        (kc.currentContext = "k0da-" ++ clusterName →
          (∃ c ∈ kc'.contexts, kc'.currentContext = c.name) ∨
          (kc'.contexts = [] ∧ kc'.currentContext = "")) := by
  intro n
  refine ⟨rfl, ?_⟩
  intro kc
  refine ⟨_, rfl, ?_, ?_⟩
  · split <;> first
    | (split <;>
        simp [entriesNamed, removeClusterFromKubeconfig, filter_ne_then_eq])
    | simp [entriesNamed, removeClusterFromKubeconfig, filter_ne_then_eq]
  · intro h
    have hcond : (removeClusterFromKubeconfig kc n).currentContext = "k0da-" ++ n := by
      simp [removeClusterFromKubeconfig, h]
    rw [if_pos hcond]
    cases hctx : (removeClusterFromKubeconfig kc n).contexts with
    | nil => exact Or.inr ⟨rfl, rfl⟩
    | cons c t => exact Or.inl ⟨c, List.mem_cons_self c t, rfl⟩

/-- Witness for C4: a concrete kubeconfig whose current context is the one
being removed and which has one other context left. -/
def kubeconfigWitness : Kubeconfig :=
  { apiVersion := "v1"
    kind := "Config"
    clusters := [⟨"k0da-demo", ⟨"https://127.0.0.1:6443", "ca"⟩⟩,
                 ⟨"k0da-other", ⟨"https://127.0.0.1:7443", "ca2"⟩⟩]
    contexts := [⟨"k0da-demo", ⟨"k0da-demo", "k0da-demo"⟩⟩,
                 ⟨"k0da-other", ⟨"k0da-other", "k0da-other"⟩⟩]
    currentContext := "k0da-demo"
    users := [⟨"k0da-demo", ⟨"c", "k"⟩⟩, ⟨"k0da-other", ⟨"c2", "k2"⟩⟩]
    preferences := [] }

/-- Witness for C4: the theorem instantiated at `kubeconfigWitness`, with the
current-context hypothesis discharged by computation. -/
theorem claim_C4_remove_cluster_semantics_witness :
    RemoveClusterFromKubeconfig none "demo" = .ok none ∧
    ∃ kc', RemoveClusterFromKubeconfig (some kubeconfigWitness) "demo" = .ok (some kc') ∧
      entriesNamed kc' ("k0da-" ++ "demo") = (0, 0, 0) ∧
      ((∃ c ∈ kc'.contexts, kc'.currentContext = c.name) ∨
       (kc'.contexts = [] ∧ kc'.currentContext = "")) := by
  have h := claim_C4_remove_cluster_semantics "demo"
  refine ⟨h.1, ?_⟩
  obtain ⟨kc', h1, h2, h3⟩ := h.2 kubeconfigWitness
  exact ⟨kc', h1, h2, h3 (by rfl)⟩

/-! ## `ExecInContainer` in the Docker and Podman backends -/

/-- Result of running the engine CLI process (`cmd.CombinedOutput()` in Go):
either the process started and exited with some code, or it could not be run
at all. -/
inductive CmdResult where
  | exited (output : String) (code : Int)
  | failedToRun (output : String) (msg : String)
deriving Repr, DecidableEq

/-- Error value returned by Go `exec.Cmd.CombinedOutput`: `none` for a `nil`
error (the process exited with code 0), an `exitError` for a process that ran
and exited nonzero (`*exec.ExitError`), and `otherError` when the command
could not be run. -/
inductive GoExecError where
  | exitError (code : Int)
  | otherError (msg : String)
deriving Repr, DecidableEq

/-- Models `cmd.CombinedOutput()`: combined output plus the error value. -/
def combinedOutput : CmdResult → String × Option GoExecError
  | .exited out code => (out, if code = 0 then none else some (.exitError code))
  | .failedToRun out msg => (out, some (.otherError msg))

/-- Embedding of `(*Docker).ExecInContainer` (docker.go lines 141-154): run
the CLI, and if the error is an `*exec.ExitError` return the exit code with a
`nil` error; only a non-`ExitError` error is propagated (with exit code 1). -/
def dockerExecInContainer (r : CmdResult) : String × Int × Option GoExecError :=
  let (out, err) := combinedOutput r
  match err with
  | some (.exitError code) => (out, code, none)
  | some (.otherError msg) => (out, 1, some (.otherError msg))
  | none => (out, 0, none)

/-- Embedding of `(*Podman).ExecInContainer` (the Podman backend, lines
350-361): identical error-handling structure to the Docker backend. -/
def podmanExecInContainer (r : CmdResult) : String × Int × Option GoExecError :=
  let (out, err) := combinedOutput r
  match err with
  | some (.exitError code) => (out, code, none)
  | some (.otherError msg) => (out, 1, some (.otherError msg))
  | none => (out, 0, none)

/-! ## Claim C5 -/

/-- C5: in both backends, `ExecInContainer` returns a `nil` error whenever
the command ran and exited (with any code, zero or not), and returns a
non-`nil` error only when the command could not be run at all. -/
theorem claim_C5_exec_error_only_when_not_run :
    (∀ (out : String) (code : Int),
      (dockerExecInContainer (.exited out code)).2.2 = none ∧
      (podmanExecInContainer (.exited out code)).2.2 = none) ∧
    (∀ r : CmdResult,
      (dockerExecInContainer r).2.2 ≠ none ∨ (podmanExecInContainer r).2.2 ≠ none →
      ∃ out msg, r = .failedToRun out msg) := by
  constructor
  · intro out code
    constructor <;>
      · simp only [dockerExecInContainer, podmanExecInContainer, combinedOutput]
        split <;> simp_all
  · intro r h
    cases r with
    | exited out code =>
      exfalso
      rcases h with h | h <;>
        · apply h
          simp only [dockerExecInContainer, podmanExecInContainer, combinedOutput]
          split <;> simp_all
    | failedToRun out msg => exact ⟨out, msg, rfl⟩

/-- Witness for C5: a concrete command that ran and exited with code 3
yields a `nil` error in both backends, and a concrete command that could not
be run is recognised as such from its non-`nil` error. -/
theorem claim_C5_exec_error_only_when_not_run_witness :
    ((dockerExecInContainer (.exited "boom" 3)).2.2 = none ∧
     (podmanExecInContainer (.exited "boom" 3)).2.2 = none) ∧
    (∃ out msg, (CmdResult.failedToRun "" "docker not found") = .failedToRun out msg) :=
  ⟨claim_C5_exec_error_only_when_not_run.1 "boom" 3,
   claim_C5_exec_error_only_when_not_run.2 (.failedToRun "" "docker not found")
     (Or.inl (by decide))⟩

/-! ## Go path and URL helpers -/

/-- Go `fmt.Sprintf` with the verb `%03d` for a natural number: pad with
zeros to at least width 3. -/
def format3 (i : Nat) : String :=
  let s := toString i
  if s.length < 3 then ⟨List.replicate (3 - s.length) '0' ++ s.data⟩ else s

/-- Stack step of the lexical cleaning algorithm of Go `path.Clean`:
`acc` holds the cleaned components in reverse. -/
def cleanComponents (rooted : Bool) : List String → List String → List String
  | acc, [] => acc.reverse
  | acc, "" :: rest => cleanComponents rooted acc rest
  | acc, "." :: rest => cleanComponents rooted acc rest
  | acc, ".." :: rest =>
    match acc with
    | a :: tl =>
      if a = ".." then cleanComponents rooted (".." :: a :: tl) rest
      else cleanComponents rooted tl rest
    | [] =>
      if rooted then cleanComponents rooted [] rest
      else cleanComponents rooted [".."] rest
  | acc, x :: rest => cleanComponents rooted (x :: acc) rest

/-- Split a character list on a separator (as `strings.Split` does). -/
def splitOnChar (sep : Char) : List Char → List (List Char)
  | [] => [[]]
  | c :: cs =>
    let r := splitOnChar sep cs
    if c = sep then [] :: r
    else
      match r with
      | h :: t => (c :: h) :: t
      | [] => [[c]]

/-- Models Go `path.Clean` / `filepath.Clean` for slash-separated paths. -/
def pathClean (p : String) : String :=
  if p = "" then "."
  else
    let rooted := goHasPrefix p "/"
    let comps := (splitOnChar '/' p.data).map (fun l => (⟨l⟩ : String))
    let outComps := cleanComponents rooted [] comps
    let body := String.intercalate "/" outComps
    if rooted then (if body = "" then "/" else "/" ++ body)
    else (if body = "" then "." else body)

/-- Models Go `path.Base` / `filepath.Base` for slash-separated paths. -/
def pathBase (p : String) : String :=
  if p = "" then "."
  else
    let cs := (p.data.reverse.dropWhile (fun c => c == '/')).reverse
    if cs = [] then "/"
    else ⟨(cs.reverse.takeWhile (fun c => c != '/')).reverse⟩

/-- Models Go `filepath.IsAbs` on unix. -/
def filepathIsAbs (p : String) : Bool := goHasPrefix p "/"

/-- Models Go `filepath.Join` for two elements: empty elements are skipped
and the result is cleaned. -/
def filepathJoin (a b : String) : String :=
  if a = "" ∧ b = "" then ""
  else if a = "" then pathClean b
  else if b = "" then pathClean a
  else pathClean (a ++ "/" ++ b)

/-- Models Go `filepath.Dir`: everything up to and including the final
separator, cleaned. -/
def filepathDir (p : String) : String :=
  pathClean ⟨(p.data.reverse.dropWhile (fun c => c != '/')).reverse⟩

/-- Characters permitted in a URL scheme after the first letter. -/
def isSchemeChar (c : Char) : Bool :=
  c.isAlpha || c.isDigit || c == '+' || c == '-' || c == '.'

/-- Models the scheme extraction of Go `net/url.Parse`: a leading letter
followed by letters, digits, `+`, `-` or `.` and then a colon.  Returns the
lowercased scheme and the rest after the colon. -/
def extractScheme (cs : List Char) : Option (List Char × List Char) :=
  match cs with
  | [] => none
  | c :: _ =>
    if !c.isAlpha then none
    else
      let sch := cs.takeWhile isSchemeChar
      let rest := cs.dropWhile isSchemeChar
      match rest with
      | ':' :: tl => some (sch.map Char.toLower, tl)
      | _ => none

/-- Embedding of `utils.isURL`: parse the string and check for an `http` or
`https` scheme (`url.Parse` is modelled by the scheme extraction; its
escaping validation is not modelled). -/
def isURL (str : String) : Bool :=
  match extractScheme str.data with
  | some (sch, _) => sch == ['h', 't', 't', 'p'] || sch == ['h', 't', 't', 'p', 's']
  | none => false

/-- URL path component (after the authority, before any query or fragment),
as in `url.URL.Path`; percent-escapes are not decoded in this model. -/
def urlPath (rest : List Char) : List Char :=
  match rest with
  | '/' :: '/' :: tl =>
    (tl.dropWhile (fun c => c != '/')).takeWhile (fun c => c != '?' && c != '#')
  | _ => rest.takeWhile (fun c => c != '?' && c != '#')

/-- Embedding of `utils.urlBase`: `path.Base` of the URL's path. -/
def urlBase (str : String) : String :=
  match extractScheme str.data with
  | some (_, rest) => pathBase ⟨urlPath rest⟩
  | none => pathBase str

/-! ## `internal/utils/utils.go`: manifest staging -/

/-- Embedding of the lower-case `copyManifestsToDir` (utils.go lines
222-267).  File reads (`os.ReadFile`) and downloads (`http.Get` with status
200 plus `io.ReadAll`) are modelled by the oracles `readFile` and `httpGet`,
`none` meaning failure; `i` is the running index of the Go `range` loop.
The result is the ordered list of (destination path, content) pairs written
into `destDir` (on error, files already written before the failing entry are
on disk but the error aborts the staging). -/
def copyManifestsToDir (readFile httpGet : String → Option String)
    (baseDir destDir : String) :
    Nat → List String → Except String (List (String × String))
  | _, [] => .ok []
  | i, mp :: restPaths =>
    let p := goTrimSpace mp
    if p = "" then copyManifestsToDir readFile httpGet baseDir destDir (i + 1) restPaths
    else
      let fetched : Except String (String × String) :=
        if isURL p then
          match httpGet p with
          | none => .error ("bad status or failed request for " ++ p)
          | some data => .ok (data, urlBase p)
        else
          let abs :=
            if filepathIsAbs p = false ∧ goTrimSpace baseDir ≠ "" then filepathJoin baseDir p
            else p
          match readFile abs with
          | none => .error ("failed to read manifest " ++ p)
          | some data => .ok (data, pathBase abs)
      match fetched with
      | .error e => .error e
      | .ok (data, baseName) =>
        let dst := filepathJoin destDir (format3 i ++ "_" ++ baseName)
        match copyManifestsToDir readFile httpGet baseDir destDir (i + 1) restPaths with
        | .error e => .error e
        | .ok written => .ok ((dst, data) :: written)

/-- Embedding of `CopyManifestsToDir` (utils.go lines 190-207): nothing to
stage without manifests; otherwise the staging directory is created and
cleared (`MkdirAll` and `RemoveAllFiles`, environment effects outside this
model) and the manifests are staged, with `baseDir` taken from the directory
of the config's source path. -/
def CopyManifestsToDir (readFile httpGet : String → Option String)
    (cc : Option ClusterConfig) (destDir : String) :
    Except String (List (String × String)) :=
  match cc with
  | none => .ok []
  | some cc =>
    if cc.spec.k0s.manifests.length = 0 then .ok []
    else
      let baseDir := if goTrimSpace cc.sourcePath ≠ "" then filepathDir cc.sourcePath else ""
      copyManifestsToDir readFile httpGet baseDir destDir 0 cc.spec.k0s.manifests

/-- The destination file names `copyManifestsToDir` produces: each non-blank
manifest at list index `i` is written to `{3-digit zero-padded i}_{basename}`
under `destDir`, in declared order. -/
def stagedManifestNames (baseDir destDir : String) : Nat → List String → List String
  | _, [] => []
  | i, mp :: restPaths =>
    let p := goTrimSpace mp
    if p = "" then stagedManifestNames baseDir destDir (i + 1) restPaths
    else
      let baseName :=
        if isURL p then urlBase p
        else
          let abs :=
            if filepathIsAbs p = false ∧ goTrimSpace baseDir ≠ "" then filepathJoin baseDir p
            else p
          pathBase abs
      filepathJoin destDir (format3 i ++ "_" ++ baseName) ::
        stagedManifestNames baseDir destDir (i + 1) restPaths

theorem copyManifestsToDir_names (readFile httpGet : String → Option String)
    (baseDir destDir : String) :
    ∀ (paths : List String) (i : Nat) (out : List (String × String)),
      copyManifestsToDir readFile httpGet baseDir destDir i paths = .ok out →
      out.map Prod.fst = stagedManifestNames baseDir destDir i paths := by
  intro paths
  induction paths with
  | nil =>
    intro i out h
    simp only [copyManifestsToDir] at h
    cases h
    rfl
  | cons mp rest ih =>
    intro i out h
    by_cases hp : goTrimSpace mp = ""
    · simp only [copyManifestsToDir, hp, if_pos] at h
      simp only [stagedManifestNames, hp, if_pos]
      exact ih (i + 1) out h
    · simp only [copyManifestsToDir, hp, if_neg, if_false] at h
      simp only [stagedManifestNames, hp, if_neg, if_false]
      by_cases hurl : isURL (goTrimSpace mp) = true
      · rw [if_pos hurl] at h
        rw [if_pos hurl]
        cases hg : httpGet (goTrimSpace mp) with
        | none => rw [hg] at h; cases h
        | some data =>
          rw [hg] at h
          cases hr : copyManifestsToDir readFile httpGet baseDir destDir (i + 1) rest with
          | error e => rw [hr] at h; cases h
          | ok written =>
            rw [hr] at h
            cases h
            simp only [List.map_cons]
            rw [ih (i + 1) written hr]
      · rw [if_neg hurl] at h
        rw [if_neg hurl]
        cases hg : readFile (if filepathIsAbs (goTrimSpace mp) = false ∧
            goTrimSpace baseDir ≠ "" then filepathJoin baseDir (goTrimSpace mp)
          else goTrimSpace mp) with
        | none => rw [hg] at h; cases h
        | some data =>
          rw [hg] at h
          cases hr : copyManifestsToDir readFile httpGet baseDir destDir (i + 1) rest with
          | error e => rw [hr] at h; cases h
          | ok written =>
            rw [hr] at h
            cases h
            simp only [List.map_cons]
            rw [ih (i + 1) written hr]

/-- A cluster config whose only non-default content is the manifest list. -/
def mkConfigManifests (ms : List String) : ClusterConfig :=
  { emptyClusterConfig with spec.k0s.manifests := ms }

/-! ## Claim C8 -/

/-- C8: staging writes each non-blank manifest to a destination filename
prefixed with its 3-digit zero-padded list index and an underscore followed
by the source basename, in declared order; in particular the inputs
`["b.yaml", "a.yaml"]` produce `000_b.yaml` then `001_a.yaml` regardless of
the alphabetical order of the basenames. -/
theorem claim_C8_manifest_staging_names :
    (∀ (readFile httpGet : String → Option String) (baseDir destDir : String)
       (paths : List String) (i : Nat) (out : List (String × String)),
       copyManifestsToDir readFile httpGet baseDir destDir i paths = .ok out →
       out.map Prod.fst = stagedManifestNames baseDir destDir i paths) ∧
    CopyManifestsToDir (fun _ => some "data") (fun _ => none)
      (some (mkConfigManifests ["b.yaml", "a.yaml"])) "" =
      .ok [("000_b.yaml", "data"), ("001_a.yaml", "data")] :=
  ⟨copyManifestsToDir_names, by rfl⟩

/-- Witness for C8: the general naming clause applied to the concrete
two-manifest staging run. -/
theorem claim_C8_manifest_staging_names_witness :
    ([("000_b.yaml", "data"), ("001_a.yaml", "data")] :
        List (String × String)).map Prod.fst =
      stagedManifestNames "" "" 0 ["b.yaml", "a.yaml"] :=
  claim_C8_manifest_staging_names.1 (fun _ => some "data") (fun _ => none)
    "" "" ["b.yaml", "a.yaml"] 0 _ (by rfl)

/-! ## Go `time.ParseDuration` and `WaitForK0sReady` -/

/-- The constant `1<<63` used by the overflow guards of Go
`time.ParseDuration`. -/
def twoPow63 : Nat := 9223372036854775808

/-- Character class `[0-9.]` used by the `ParseDuration` main loop. -/
def isDigitOrDot (c : Char) : Bool :=
  decide (c = '.' ∨ (48 ≤ c.toNat ∧ c.toNat ≤ 57))

/-- Models Go `time/format.go` `leadingInt`: consume leading decimal digits,
erroring when the value would exceed `1<<63`. -/
def leadingInt : Nat → List Char → Option (Nat × List Char)
  | x, [] => some (x, [])
  | x, c :: cs =>
    if c.toNat < 48 ∨ 57 < c.toNat then some (x, c :: cs)
    else if x > twoPow63 / 10 then none
    else
      let y := x * 10 + (c.toNat - 48)
      if y > twoPow63 then none
      else leadingInt y cs

/-- Models Go `time/format.go` `leadingFraction`: consume fractional digits,
stopping accumulation (but not consumption) once the value would overflow;
returns the value, the power-of-ten scale and the rest. -/
def leadingFraction : Nat → Nat → Bool → List Char → Nat × Nat × List Char
  | x, scale, _, [] => (x, scale, [])
  | x, scale, overflow, c :: cs =>
    if c.toNat < 48 ∨ 57 < c.toNat then (x, scale, c :: cs)
    else if overflow then leadingFraction x scale true cs
    else if x > (twoPow63 - 1) / 10 then leadingFraction x scale true cs
    else
      let y := x * 10 + (c.toNat - 48)
      if y > twoPow63 then leadingFraction x scale true cs
      else leadingFraction y (scale * 10) false cs

/-- Models the Go `unitMap` of `time.ParseDuration` (nanoseconds per unit);
`Char.ofNat 181` and `Char.ofNat 956` are the two micro signs. -/
def unitMapLookup (u : List Char) : Option Nat :=
  if u = ['n', 's'] then some 1
  else if u = ['u', 's'] then some 1000
  else if u = [Char.ofNat 181, 's'] then some 1000
  else if u = [Char.ofNat 956, 's'] then some 1000
  else if u = ['m', 's'] then some 1000000
  else if u = ['s'] then some 1000000000
  else if u = ['m'] then some 60000000000
  else if u = ['h'] then some 3600000000000
  else none

/-- The main loop of `time.ParseDuration`, accumulating the total duration
`d` in nanoseconds; `none` is Go's parse error.  `fuel` only bounds the
recursion and is always sufficient at the call site, because every iteration
consumes at least the one-character unit. -/
def parseDurationLoop : Nat → Nat → List Char → Option Nat
  | _, d, [] => some d
  | 0, _, _ => none
  | fuel + 1, d, c0 :: rest =>
    let s := c0 :: rest
    if !isDigitOrDot c0 then none
    else
      match leadingInt 0 s with
      | none => none
      | some (v, s1) =>
        let pre := decide (s1.length ≠ s.length)
        let fps :=
          match s1 with
          | '.' :: tl =>
            let fsr := leadingFraction 0 1 false tl
            (fsr.1, fsr.2.1, fsr.2.2, decide (fsr.2.2.length ≠ tl.length))
          | _ => (0, 1, s1, false)
        match fps with
        | (f, scale, s2, post) =>
          if pre = false ∧ post = false then none
          else
            let u := s2.takeWhile (fun c => !isDigitOrDot c)
            let s3 := s2.dropWhile (fun c => !isDigitOrDot c)
            if u = [] then none
            else
              match unitMapLookup u with
              | none => none
              | some unit =>
                if v > twoPow63 / unit then none
                else
                  let v := v * unit
                  let v := if f > 0 then v + f * unit / scale else v
                  if f > 0 ∧ v > twoPow63 then none
                  else
                    let dv := d + v
                    if dv > twoPow63 then none
                    else parseDurationLoop fuel dv s3

/-- Models Go `time.ParseDuration`, returning the duration in nanoseconds
(`none` is a parse error).  The fractional contribution
`uint64(float64(f) * (float64(unit) / scale))` is modelled by the integer
division `f * unit / scale`, which agrees wherever `float64` is exact; the
success/failure partition, which is all the theorems below depend on, is
unaffected. -/
def parseGoDuration (s : String) : Option Int :=
  let cs := s.data
  let signed :=
    match cs with
    | c :: rest =>
      if c = '-' then (true, rest)
      else if c = '+' then (false, rest)
      else (false, c :: rest)
    | [] => (false, [])
  let neg := signed.1
  let cs := signed.2
  if cs = ['0'] then some 0
  else if cs = [] then none
  else
    match parseDurationLoop (cs.length + 1) 0 cs with
    | none => none
    | some d =>
      if neg then some (-(d : Int))
      else if d > twoPow63 - 1 then none
      else some (d : Int)

/-- Polling loop of `WaitForK0sReady` (utils.go lines 37-55): the 2-second
ticker fires at tick `k` (elapsed time `2*(k+1)` seconds); readiness
(`isK0sReady`, an engine exec) is the oracle `ready`.  Context cancellation
is not exercised in this model.  `fuel` bounds the recursion; `none` models a
run longer than the fuel allows. -/
def waitLoop (ready : Nat → Bool) (timeoutNanos : Int) (timeout : String) :
    Nat → Nat → Option (Except String Unit)
  | _, 0 => none
  | k, fuel + 1 =>
    if ready k then some (.ok ())
    else if 2 * ((k : Int) + 1) * 1000000000 > timeoutNanos then
      some (.error ("timeout waiting for cluster to be ready after " ++ timeout))
    else waitLoop ready timeoutNanos timeout (k + 1) fuel

/-- Embedding of `WaitForK0sReady` (utils.go lines 24-56): parse the timeout
string, silently defaulting to 60 seconds when it does not parse, then poll
readiness. -/
def WaitForK0sReady (timeout : String) (ready : Nat → Bool) (fuel : Nat) :
    Option (Except String Unit) :=
  let timeoutDuration := (parseGoDuration timeout).getD 60000000000
  waitLoop ready timeoutDuration timeout 0 fuel

/-- Success/failure outcome of a wait, ignoring the error message text. -/
def waitOutcome (r : Option (Except String Unit)) : Option Bool :=
  r.map (fun e => match e with | .ok _ => true | .error _ => false)

theorem waitLoop_outcome_message_independent (ready : Nat → Bool) (tn : Int)
    (t1 t2 : String) :
    ∀ (fuel k : Nat),
      waitOutcome (waitLoop ready tn t1 k fuel) =
      waitOutcome (waitLoop ready tn t2 k fuel) := by
  intro fuel
  induction fuel with
  | zero => intro k; rfl
  | succ fuel ih =>
    intro k
    by_cases h1 : ready k
    · simp [waitLoop, h1]
    · by_cases h2 : 2 * ((k : Int) + 1) * 1000000000 > tn
      · simp [waitLoop, h1, h2, waitOutcome]
      · simp only [waitLoop, h1, h2, if_false, Bool.false_eq_true]
        exact ih (k + 1)

/-! ## Claim C10 -/

/-- C10: when the timeout string does not parse as a duration,
`WaitForK0sReady` does not return an error for that input: it silently
substitutes the 60-second default and proceeds to poll, behaving (up to the
timeout string echoed in the final error message) exactly like a call with
`60s`. -/
theorem claim_C10_unparseable_timeout_defaults_to_60s :
    ∀ timeout : String, parseGoDuration timeout = none →
      (parseGoDuration timeout).getD 60000000000 = 60000000000 ∧
      parseGoDuration "60s" = some 60000000000 ∧
      ∀ (ready : Nat → Bool) (fuel : Nat),
        waitOutcome (WaitForK0sReady timeout ready fuel) =
        waitOutcome (WaitForK0sReady "60s" ready fuel) := by
  intro t h
  refine ⟨by rw [h]; rfl, by rfl, ?_⟩
  intro ready fuel
  unfold WaitForK0sReady
  rw [h, show parseGoDuration "60s" = some 60000000000 from rfl]
  exact waitLoop_outcome_message_independent ready _ t "60s" fuel 0

/-- Witness for C10: the unparseable timeout string `banana` behaves like
`60s` for a concrete readiness schedule. -/
theorem claim_C10_unparseable_timeout_defaults_to_60s_witness :
    parseGoDuration "banana" = none ∧
    waitOutcome (WaitForK0sReady "banana" (fun k => decide (2 ≤ k)) 5) =
    waitOutcome (WaitForK0sReady "60s" (fun k => decide (2 ≤ k)) 5) := by
  have h : parseGoDuration "banana" = none := by rfl
  exact ⟨h,
    (claim_C10_unparseable_timeout_defaults_to_60s "banana" h).2.2
      (fun k => decide (2 ≤ k)) 5⟩
